import Mathlib

/-!
# Verification of the hitokoto-rust corpus cache, query builder, sampler,
# mirror loader and sliding-window request counter

Shallow embedding of `src/counter.rs`, `src/db.rs` and `src/main.rs`.
Timestamps (`std::time::Instant`) are modelled as natural numbers measured in
seconds; `Instant::duration_since` is saturating subtraction, matching `Nat`
subtraction.  Database query results are supplied as explicit arguments
(`Except`-valued oracles) so that fallible paths are visible; the backing
store itself is modelled as the list of rows of the `hitokoto` table, with the
fixed query shapes the code issues given their SQL meaning over that list.
-/

/-- A row of the `hitokoto` table (`struct Hitokoto`, `src/main.rs:17-26`). -/
structure Hitokoto where
  id : Int
  uuid : String
  text : String
  type : String
  from_source : String
  from_who : Option String
  length : Int
deriving DecidableEq, Repr

/-- Request query parameters (`struct QueryParams`, `src/main.rs:43-49`). -/
structure QueryParams where
  c : Option String
  encode : Option String
  min_length : Option Int
  max_length : Option Int
deriving DecidableEq, Repr

/-- The sqlx backend family tag (`sqlx::any::AnyKind`). -/
inductive AnyKind where
  | MySql
  | Postgres
  | Sqlite
deriving DecidableEq, Repr

/-! ## Sliding-window request counter (`src/counter.rs:57-92`) -/

/-- `struct SlidingWindowCounter` (`src/counter.rs:59-62`): a window length and
the queue of event timestamps, front first. -/
structure SlidingWindowCounter where
  window : Nat
  requests : List Nat
deriving DecidableEq, Repr

/-- `SlidingWindowCounter::new` (`src/counter.rs:65-70`). -/
def SlidingWindowCounter.new (window : Nat) : SlidingWindowCounter :=
  { window := window, requests := [] }

/-- `SlidingWindowCounter::cleanup` (`src/counter.rs:83-91`): pop from the
front while the front timestamp is more than `window` old, stopping at the
first retained one — exactly `List.dropWhile`. -/
def SlidingWindowCounter.cleanup (c : SlidingWindowCounter) (now : Nat) :
    SlidingWindowCounter :=
  { c with requests := c.requests.dropWhile (fun t => decide (now - t > c.window)) }

/-- `SlidingWindowCounter::increment` (`src/counter.rs:72-75`): cleanup, then
push the current timestamp at the back. -/
def SlidingWindowCounter.increment (c : SlidingWindowCounter) (now : Nat) :
    SlidingWindowCounter :=
  let c := c.cleanup now
  { c with requests := c.requests ++ [now] }

/-- `SlidingWindowCounter::count` (`src/counter.rs:77-81`): cleanup at the
current time, then return the queue length. -/
def SlidingWindowCounter.count (c : SlidingWindowCounter) (now : Nat) : Nat :=
  (c.cleanup now).requests.length

/-- Fold `increment` over a list of timestamps starting from a fresh counter
(the per-request calls made through `RequestStats::increment`). -/
def SlidingWindowCounter.insertAll (window : Nat) (ts : List Nat) :
    SlidingWindowCounter :=
  ts.foldl (fun c t => c.increment t) (SlidingWindowCounter.new window)

namespace SlidingWindowCounter

/-- On a monotone (non-decreasing) queue the prefix trim of `cleanup` removes
exactly the timestamps older than `now - window`. -/
theorem cleanup_eq_filter (c : SlidingWindowCounter) (now : Nat)
    (h : c.requests.Pairwise (· ≤ ·)) :
    (c.cleanup now).requests =
      c.requests.filter (fun t => decide (now - t ≤ c.window)) := by
  obtain ⟨w, l⟩ := c
  simp only [cleanup] at *
  induction l with
  | nil => rfl
  | cons x xs ih =>
    simp only [List.pairwise_cons] at h
    by_cases hx : now - x > w
    · have h1 : decide (now - x > w) = true := decide_eq_true hx
      have h2 : decide (now - x ≤ w) = false := decide_eq_false (by omega)
      simp only [List.dropWhile_cons, List.filter_cons, h1, h2, if_true, if_false,
        Bool.false_eq_true, reduceIte]
      exact ih h.2
    · have h1 : decide (now - x > w) = false := decide_eq_false hx
      have h2 : decide (now - x ≤ w) = true := decide_eq_true (by omega)
      simp only [List.dropWhile_cons, List.filter_cons, h1, h2, if_true, if_false,
        Bool.false_eq_true, reduceIte]
      have hall : ∀ y ∈ xs, decide (now - y ≤ w) = true := by
        intro y hy
        have hxy : x ≤ y := h.1 y hy
        have : now - y ≤ now - x := Nat.sub_le_sub_left hxy now
        exact decide_eq_true (by omega)
      rw [List.filter_eq_self.mpr hall]

/-- If no queued timestamp is stale at `now`, `cleanup` is the identity. -/
theorem cleanup_eq_self (c : SlidingWindowCounter) (now : Nat)
    (h : ∀ t ∈ c.requests, now - t ≤ c.window) :
    (c.cleanup now).requests = c.requests := by
  obtain ⟨w, l⟩ := c
  simp only [cleanup]
  cases l with
  | nil => rfl
  | cons x xs =>
    have h1 : decide (now - x > w) = false := decide_eq_false (by
      have := h x (by simp)
      simp only at this
      omega)
    simp only [List.dropWhile_cons, h1, Bool.false_eq_true, reduceIte]

/-- If every queued timestamp is stale at `now`, `cleanup` empties the queue. -/
theorem cleanup_eq_nil (c : SlidingWindowCounter) (now : Nat)
    (h : ∀ t ∈ c.requests, now - t > c.window) :
    (c.cleanup now).requests = [] := by
  obtain ⟨w, l⟩ := c
  simp only [cleanup] at *
  induction l with
  | nil => rfl
  | cons x xs ih =>
    have h1 : decide (now - x > w) = true := decide_eq_true (h x (by simp))
    simp only [List.dropWhile_cons, h1, if_true]
    exact ih (fun t ht => h t (by simp [ht]))

/-- Folding `increment` over monotone timestamps that are all strictly within
`window` of `now` (and not in the future) appends them to the queue: no
insertion evicts an earlier one, provided the queue already satisfies the same
bounds and precedes the inserted timestamps. -/
theorem foldl_increment (now window : Nat) :
    ∀ (ts : List Nat) (c : SlidingWindowCounter), c.window = window →
      ts.Pairwise (· ≤ ·) →
      (∀ t ∈ ts, t ≤ now ∧ now - t < window) →
      (∀ u ∈ c.requests, u ≤ now ∧ now - u < window) →
      (∀ u ∈ c.requests, ∀ t ∈ ts, u ≤ t) →
      (ts.foldl (fun c t => c.increment t) c).requests = c.requests ++ ts := by
  intro ts
  induction ts with
  | nil => intro c _ _ _ _ _; simp
  | cons x xs ih =>
    intro c hw hsort hin hqbound hord
    simp only [List.pairwise_cons] at hsort
    have hxnow := hin x (by simp)
    have hclean : (c.cleanup x).requests = c.requests := by
      apply cleanup_eq_self
      intro u hu
      have hub := hqbound u hu
      rw [hw]
      omega
    have hstep : (c.increment x).requests = c.requests ++ [x] := by
      simp only [increment]
      rw [hclean]
    have hstepw : (c.increment x).window = window := by
      simp only [increment, cleanup]
      exact hw
    simp only [List.foldl_cons]
    rw [ih (c.increment x) hstepw hsort.2
      (fun t ht => hin t (by simp [ht]))
      (by
        rw [hstep]
        intro u hu
        rcases List.mem_append.mp hu with h1 | h1
        · exact hqbound u h1
        · simp only [List.mem_singleton] at h1
          subst h1
          exact hxnow)
      (by
        rw [hstep]
        intro u hu t ht
        rcases List.mem_append.mp hu with h1 | h1
        · exact hord u h1 t (by simp [ht])
        · simp only [List.mem_singleton] at h1
          subst h1
          exact hsort.1 t ht)]
    rw [hstep, List.append_assoc]
    rfl

/-- Folding `increment` over monotone timestamps all strictly within `window`
of `now` and not in the future, starting from a fresh counter, leaves the
queue equal to the inserted list. -/
theorem insertAll_requests (window now : Nat) (ts : List Nat)
    (hsort : ts.Pairwise (· ≤ ·))
    (hin : ∀ t ∈ ts, t ≤ now ∧ now - t < window) :
    (insertAll window ts).requests = ts := by
  have h := foldl_increment now window ts (SlidingWindowCounter.new window) rfl
    hsort hin (by simp [SlidingWindowCounter.new]) (by simp [SlidingWindowCounter.new])
  simpa [insertAll, SlidingWindowCounter.new] using h

/-- `increment` never changes the window length. -/
theorem window_foldl_increment (ts : List Nat) (c : SlidingWindowCounter) :
    (ts.foldl (fun c t => c.increment t) c).window = c.window := by
  induction ts generalizing c with
  | nil => rfl
  | cons x xs ih =>
    simp only [List.foldl_cons]
    rw [ih]
    rfl

theorem insertAll_window (window : Nat) (ts : List Nat) :
    (insertAll window ts).window = window := by
  simp [insertAll, window_foldl_increment, SlidingWindowCounter.new]

end SlidingWindowCounter

/-- C6: `count` evicts from the front every timestamp older than
`now - window` (on a monotone queue the prefix trim equals that filter) and
returns the remaining length; inserting `k` events strictly within the last
`window` seconds into a fresh counter and then calling `count` returns exactly
`k`; and once `now` is more than `window` past the last event, `count`
returns `0`. -/
theorem SlidingWindowCounter_count_spec :
    (∀ (c : SlidingWindowCounter) (now : Nat), c.requests.Pairwise (· ≤ ·) →
      c.count now = (c.requests.filter (fun t => decide (now - t ≤ c.window))).length)
    ∧ (∀ (window now : Nat) (ts : List Nat), ts.Pairwise (· ≤ ·) →
      (∀ t ∈ ts, t ≤ now ∧ now - t < window) →
      (SlidingWindowCounter.insertAll window ts).count now = ts.length)
    ∧ (∀ (c : SlidingWindowCounter) (now last : Nat),
      (∀ t ∈ c.requests, t ≤ last) → now - last > c.window → c.count now = 0) := by
  refine ⟨?_, ?_, ?_⟩
  · intro c now h
    simp only [SlidingWindowCounter.count]
    rw [SlidingWindowCounter.cleanup_eq_filter c now h]
  · intro window now ts hsort hin
    simp only [SlidingWindowCounter.count]
    rw [SlidingWindowCounter.cleanup_eq_self]
    · rw [SlidingWindowCounter.insertAll_requests window now ts hsort hin]
    · rw [SlidingWindowCounter.insertAll_requests window now ts hsort hin,
        SlidingWindowCounter.insertAll_window]
      intro t ht
      exact Nat.le_of_lt (hin t ht).2
  · intro c now last hle hpast
    simp only [SlidingWindowCounter.count]
    rw [SlidingWindowCounter.cleanup_eq_nil]
    · rfl
    · intro t ht
      have := hle t ht
      omega

/-- Witness for `SlidingWindowCounter_count_spec` at concrete inputs. -/
theorem SlidingWindowCounter_count_spec_witness :
    (SlidingWindowCounter.mk 5 [0, 2, 4]).count 6 =
        (([0, 2, 4] : List Nat).filter (fun t => decide (6 - t ≤ 5))).length
    ∧ (SlidingWindowCounter.insertAll 60 [10, 11]).count 12 = 2
    ∧ (SlidingWindowCounter.mk 5 [0, 2, 4]).count 100 = 0 :=
  ⟨SlidingWindowCounter_count_spec.1 (SlidingWindowCounter.mk 5 [0, 2, 4]) 6 (by decide),
   SlidingWindowCounter_count_spec.2.1 60 12 [10, 11] (by decide) (by decide),
   SlidingWindowCounter_count_spec.2.2 (SlidingWindowCounter.mk 5 [0, 2, 4]) 100 4
     (by decide) (by decide)⟩

set_option maxRecDepth 4000 in
/-- C7: incrementing once per second for 65 seconds (timestamps 0..64) and
then counting the 60-second window once those 65 seconds have elapsed
(`now = 65`) returns exactly 60, the earliest 5 timestamps (0..4) having been
evicted from the front. -/
theorem SlidingWindowCounter_sixty_five_seconds :
    (SlidingWindowCounter.insertAll 60 (List.range 65)).count 65 = 60
    ∧ ((SlidingWindowCounter.insertAll 60 (List.range 65)).cleanup 65).requests =
        (List.range 65).drop 5 := by
  constructor
  · decide
  · decide

/-! ## Cached snapshot state and `DbState::update` (`src/db.rs:9-49`)

`struct DbState` keeps the cached aggregates in three separate `AtomicI32`s
and an `ArcSwap<Vec<String>>`.  Each individual field load/store is atomic,
but `update` performs four separate stores in program order: `count`
(line 37), `max_length` (line 40), `min_length` (line 41), `uuids` (line 46).
A reader running between two stores observes the earlier stores' new values
and the later stores' old values. -/

/-- The observable cached fields of `DbState` (`src/db.rs:11-14`); the pool
handle is omitted. -/
structure DbSnapshot where
  count : Int
  max_length : Int
  min_length : Int
  uuids : List String
deriving DecidableEq, Repr

/-- The freshly queried values `DbState::update` is about to store. -/
structure UpdateVals where
  cnt : Int
  maxL : Int
  minL : Int
  us : List String
deriving DecidableEq, Repr

/-- The four field stores of `DbState::update` in program order
(`src/db.rs:37,40,41,46`). -/
def updateStores (v : UpdateVals) : List (DbSnapshot → DbSnapshot) :=
  [fun s => { s with count := v.cnt },
   fun s => { s with max_length := v.maxL },
   fun s => { s with min_length := v.minL },
   fun s => { s with uuids := v.us }]

/-- The cached state a reader observes once the first `k` stores of
`DbState::update` have executed. -/
def observeAfter (s : DbSnapshot) (v : UpdateVals) (k : Nat) : DbSnapshot :=
  ((updateStores v).take k).foldl (fun s f => f s) s

/-- How a call to `DbState::update` terminates, together with the cached state
left published at that point: normal return `Ok(())`, early return `Err`, or a
panic from one of the two `.unwrap()` calls. -/
inductive UpdateOutcome where
  | ok (s : DbSnapshot)
  | err (s : DbSnapshot)
  | panicked (s : DbSnapshot)
deriving DecidableEq, Repr

namespace DbState

/-- `DbState::update` (`src/db.rs:30-49`) at query granularity.  The three
query results are supplied as oracles.  The count query result and the
length-stats result are consumed with `.unwrap()` (lines 32-35 and 39), so
their failure panics; the uuid-list query uses `?` (line 45), so its failure
returns the error — but only after the count and length stores have already
executed. -/
def update (s : DbSnapshot) (countRes : Except Unit Int)
    (statsRes : Except Unit (Int × Int)) (uuidsRes : Except Unit (List String)) :
    UpdateOutcome :=
  match countRes with
  | .error _ => .panicked s
  | .ok cnt =>
    let s1 : DbSnapshot := { s with count := cnt }
    match statsRes with
    | .error _ => .panicked s1
    | .ok p =>
      let s2 : DbSnapshot := { s1 with max_length := p.1, min_length := p.2 }
      match uuidsRes with
      | .error _ => .err s2
      | .ok us => .ok { s2 with uuids := us }

end DbState

/-- C1 counterexample: a reader running after the `count` store but before the
`uuids` store of `DbState::update` observes a state that is neither the
fully-old nor the fully-new snapshot — the new count `2` paired with the old
one-element identifier list. -/
theorem DbState_update_torn_read :
    observeAfter ⟨1, 1, 1, ["a"]⟩ ⟨2, 3, 0, ["a", "b"]⟩ 1 ≠ ⟨1, 1, 1, ["a"]⟩
    ∧ observeAfter ⟨1, 1, 1, ["a"]⟩ ⟨2, 3, 0, ["a", "b"]⟩ 1 ≠
        observeAfter ⟨1, 1, 1, ["a"]⟩ ⟨2, 3, 0, ["a", "b"]⟩ 4
    ∧ (observeAfter ⟨1, 1, 1, ["a"]⟩ ⟨2, 3, 0, ["a", "b"]⟩ 1).count = 2
    ∧ (observeAfter ⟨1, 1, 1, ["a"]⟩ ⟨2, 3, 0, ["a", "b"]⟩ 1).uuids.length = 1 := by
  refine ⟨by decide, by decide, rfl, rfl⟩

/-- C1 (amended): `DbState::update` stores the four cached fields one at a
time in the order `count`, `max_length`, `min_length`, `uuids`; a reader
observes the state with some prefix of these stores applied — before any
store the fully-old snapshot, after all four the fully-new one — and the
identifier list itself is replaced wholesale, so the list a reader obtains is
always either the old list or the new list, never a partial one. -/
theorem DbState_update_prefix_publication (s : DbSnapshot) (v : UpdateVals) (k : Nat) :
    observeAfter s v 0 = s
    ∧ observeAfter s v 4 = ⟨v.cnt, v.maxL, v.minL, v.us⟩
    ∧ ((observeAfter s v k).uuids = s.uuids ∨ (observeAfter s v k).uuids = v.us) := by
  refine ⟨rfl, rfl, ?_⟩
  match k with
  | 0 => exact Or.inl rfl
  | 1 => exact Or.inl rfl
  | 2 => exact Or.inl rfl
  | 3 => exact Or.inl rfl
  | n + 4 =>
    have h : (updateStores v).take (n + 4) = updateStores v :=
      List.take_of_length_le (by simp [updateStores])
    simp only [observeAfter, h]
    exact Or.inr rfl

/-- C2 counterexample: when the uuid-list query of `DbState::update` fails,
the function returns the error, but the previously published snapshot has
already had its `count`, `max_length` and `min_length` replaced by the fresh
values — the published state is not left unchanged. -/
theorem DbState_update_partial_on_failure :
    DbState.update ⟨1, 1, 1, ["a"]⟩ (.ok 5) (.ok (7, 2)) (.error ()) =
      .err ⟨5, 7, 2, ["a"]⟩
    ∧ (⟨5, 7, 2, ["a"]⟩ : DbSnapshot) ≠ ⟨1, 1, 1, ["a"]⟩ := by
  refine ⟨rfl, by decide⟩

/-- C2 (amended): if the count query or the length-stats query of
`DbState::update` fails, the call panics (the results are consumed with
`.unwrap()`) instead of returning an error, with every store made so far left
in place; if the identifier-list query fails, the call returns the error, but
the count and length-bound fields have already been overwritten — only the
identifier list keeps its previous value.  Only when all three queries succeed
does it return `Ok` with the fully-new snapshot. -/
theorem DbState_update_failure_behavior (s : DbSnapshot) (cnt : Int) (p : Int × Int)
    (us : List String) (sr : Except Unit (Int × Int)) (ur : Except Unit (List String)) :
    DbState.update s (.error ()) sr ur = .panicked s
    ∧ DbState.update s (.ok cnt) (.error ()) ur = .panicked { s with count := cnt }
    ∧ DbState.update s (.ok cnt) (.ok p) (.error ()) =
        .err { s with count := cnt, max_length := p.1, min_length := p.2 }
    ∧ DbState.update s (.ok cnt) (.ok p) (.ok us) =
        .ok { count := cnt, max_length := p.1, min_length := p.2, uuids := us } :=
  ⟨rfl, rfl, rfl, rfl⟩

/-! ## Query builder (`src/db.rs:187-234` and `src/main.rs:179-219`)

Both files build the same condition list and bound-parameter list; `main.rs`
additionally seeds the condition list with `1=1` and formats the statement
differently.  Rust's `str::split(char)` and `Vec::join` are modelled by
`splitChar`/`rustSplit` and `joinStr` below, preserving their exact semantics
(in particular `"".split(sep)` yields one empty piece, never zero pieces). -/

/-- Rust `str::split(sep)` on the character list of a string: split at every
separator, keeping empty pieces; always returns at least one piece. -/
def splitChar (sep : Char) : List Char → List (List Char)
  | [] => [[]]
  | c :: rest =>
    let r := splitChar sep rest
    if c = sep then [] :: r
    else
      match r with
      | [] => [[c]]
      | piece :: tail => (c :: piece) :: tail

/-- Rust `str::split(sep).collect::<Vec<&str>>()`. -/
def rustSplit (s : String) (sep : Char) : List String :=
  (splitChar sep s.data).map (fun l => String.mk l)

/-- Rust `Vec::join(sep)`. -/
def joinStr (sep : String) : List String → String
  | [] => ""
  | [a] => a
  | a :: b :: rest => a ++ sep ++ joinStr sep (b :: rest)

/-- The number of `?` parameter placeholders in a string. -/
def countQ (s : String) : Nat := s.data.countP (fun ch => ch == '?')

/-- The membership clause placeholder list `vec!["?"; n].join(",")`
(`src/db.rs:195`, `src/main.rs:188`). -/
def placeholders (n : Nat) : String := joinStr "," (List.replicate n "?")

/-- The category condition and its bound values (`src/db.rs:192-201`,
`src/main.rs:183-192`): split the `c` parameter on commas and, when the split
is non-empty (it always is), emit one `IN`-clause with one placeholder per
piece and bind the pieces in order. -/
def catConds (p : QueryParams) : List String :=
  match p.c with
  | none => []
  | some categories =>
    let cats := rustSplit categories ','
    if cats.isEmpty then []
    else ["type IN (" ++ placeholders cats.length ++ ")"]

def catParams (p : QueryParams) : List String :=
  match p.c with
  | none => []
  | some categories =>
    let cats := rustSplit categories ','
    if cats.isEmpty then [] else cats

/-- The minimum-length condition (`src/db.rs:203-206`, `src/main.rs:194-197`). -/
def minConds (p : QueryParams) : List String :=
  match p.min_length with
  | none => []
  | some _ => ["length >= ?"]

def minParams (p : QueryParams) : List String :=
  match p.min_length with
  | none => []
  | some min => [toString min]

/-- The maximum-length condition (`src/db.rs:208-211`, `src/main.rs:199-202`). -/
def maxConds (p : QueryParams) : List String :=
  match p.max_length with
  | none => []
  | some _ => ["length <= ?"]

def maxParams (p : QueryParams) : List String :=
  match p.max_length with
  | none => []
  | some max => [toString max]

/-- The accumulated condition list, in push order: category, then minimum
length, then maximum length. -/
def conditions (p : QueryParams) : List String :=
  catConds p ++ minConds p ++ maxConds p

/-- The accumulated bound-parameter list, in push order: category values,
then minimum length, then maximum length. -/
def query_params (p : QueryParams) : List String :=
  catParams p ++ minParams p ++ maxParams p

/-- The dialect random-ordering token (`src/db.rs:219-222`,
`src/main.rs:205-209`). -/
def rand_function (kind : AnyKind) : String :=
  match kind with
  | AnyKind.MySql => "RAND()"
  | _ => "RANDOM()"

namespace Db

/-- The `WHERE` clause of `src/db.rs:213-217`: absent when no condition was
pushed. -/
def where_clause (p : QueryParams) : String :=
  if (conditions p).isEmpty then ""
  else "WHERE " ++ joinStr " AND " (conditions p)

/-- `build_query_conditions` (`src/db.rs:187-234`). -/
def build_query_conditions (p : QueryParams) (kind : AnyKind) :
    String × List String :=
  ("SELECT * FROM (\n            SELECT * FROM hitokoto\n            "
      ++ where_clause p
      ++ "\n        ) AS sampled\n        ORDER BY "
      ++ rand_function kind
      ++ "\n        LIMIT 1",
   query_params p)

end Db

namespace Main

/-- `build_query_conditions` (`src/main.rs:179-219`): same condition and
parameter lists, but the condition vector is seeded with `1=1` and the
statement is a single flat `SELECT`. -/
def build_query_conditions (p : QueryParams) (kind : AnyKind) :
    String × List String :=
  ("SELECT * FROM hitokoto WHERE "
      ++ joinStr " AND " ("1=1" :: conditions p)
      ++ " ORDER BY "
      ++ rand_function kind
      ++ " LIMIT 1",
   query_params p)

end Main

/-- `str::split` always yields at least one piece. -/
theorem splitChar_ne_nil (sep : Char) (l : List Char) : splitChar sep l ≠ [] := by
  cases l with
  | nil => simp [splitChar]
  | cons c rest =>
    simp only [splitChar]
    by_cases h : c = sep
    · simp [h]
    · simp only [h, if_false]
      cases splitChar sep rest with
      | nil => simp
      | cons piece tail => simp

theorem rustSplit_ne_nil (s : String) (sep : Char) : rustSplit s sep ≠ [] := by
  simp only [rustSplit, ne_eq, List.map_eq_nil_iff]
  exact splitChar_ne_nil sep s.data

theorem rustSplit_isEmpty (s : String) (sep : Char) :
    (rustSplit s sep).isEmpty = false := by
  rw [List.isEmpty_eq_false_iff_exists_mem]
  cases h : rustSplit s sep with
  | nil => exact absurd h (rustSplit_ne_nil s sep)
  | cons a tail => exact ⟨a, by simp⟩

theorem countQ_append (a b : String) : countQ (a ++ b) = countQ a + countQ b := by
  simp [countQ, String.data_append, List.countP_append]

theorem countQ_join (sep : String) (hsep : countQ sep = 0) (l : List String) :
    countQ (joinStr sep l) = (l.map countQ).sum := by
  induction l with
  | nil => simp [joinStr, countQ]
  | cons a rest ih =>
    cases rest with
    | nil => simp [joinStr]
    | cons b tail =>
      simp only [joinStr, countQ_append, hsep, List.map_cons, List.sum_cons] at *
      omega

theorem countQ_placeholders (n : Nat) : countQ (placeholders n) = n := by
  rw [placeholders, countQ_join "," (by decide)]
  have h1 : countQ "?" = 1 := by decide
  simp [List.map_replicate, h1, List.sum_replicate]

theorem countQ_catConds (p : QueryParams) :
    ((catConds p).map countQ).sum = (catParams p).length := by
  cases hc : p.c with
  | none => simp [catConds, catParams, hc]
  | some categories =>
    simp only [catConds, catParams, hc, rustSplit_isEmpty, Bool.false_eq_true, if_false]
    have h1 : countQ "type IN (" = 0 := by decide
    have h2 : countQ ")" = 0 := by decide
    simp [countQ_append, countQ_placeholders, h1, h2]

theorem countQ_minConds (p : QueryParams) :
    ((minConds p).map countQ).sum = (minParams p).length := by
  cases hm : p.min_length with
  | none => simp [minConds, minParams, hm]
  | some m =>
    simp only [minConds, minParams, hm, List.map_cons, List.map_nil, List.sum_cons,
      List.sum_nil, List.length_singleton]
    decide

theorem countQ_maxConds (p : QueryParams) :
    ((maxConds p).map countQ).sum = (maxParams p).length := by
  cases hm : p.max_length with
  | none => simp [maxConds, maxParams, hm]
  | some m =>
    simp only [maxConds, maxParams, hm, List.map_cons, List.map_nil, List.sum_cons,
      List.sum_nil, List.length_singleton]
    decide

theorem countQ_conditions (p : QueryParams) :
    ((conditions p).map countQ).sum = (query_params p).length := by
  simp [conditions, query_params, List.map_append, List.sum_append, List.length_append,
    countQ_catConds, countQ_minConds, countQ_maxConds]

theorem conditions_nil_query_params (p : QueryParams) (h : conditions p = []) :
    query_params p = [] := by
  simp only [conditions, List.append_eq_nil] at h
  obtain ⟨⟨h1, h2⟩, h3⟩ := h
  have hcat : catParams p = [] := by
    cases hc : p.c with
    | none => simp [catParams, hc]
    | some categories =>
      simp [catConds, hc, rustSplit_isEmpty] at h1
  have hmin : minParams p = [] := by
    cases hm : p.min_length with
    | none => simp [minParams, hm]
    | some m => simp [minConds, hm] at h2
  have hmax : maxParams p = [] := by
    cases hm : p.max_length with
    | none => simp [maxParams, hm]
    | some m => simp [maxConds, hm] at h3
  simp [query_params, hcat, hmin, hmax]

theorem countQ_where_clause (p : QueryParams) :
    countQ (Db.where_clause p) = (query_params p).length := by
  rw [Db.where_clause]
  by_cases h : (conditions p).isEmpty
  · rw [if_pos h]
    rw [List.isEmpty_iff] at h
    rw [conditions_nil_query_params p h]
    decide
  · rw [if_neg h]
    rw [countQ_append, countQ_join " AND " (by decide), countQ_conditions]
    have h1 : countQ "WHERE " = 0 := by decide
    omega

theorem countQ_rand (k : AnyKind) : countQ (rand_function k) = 0 := by
  cases k <;> decide

theorem Db_countQ_sql (p : QueryParams) (k : AnyKind) :
    countQ (Db.build_query_conditions p k).1 = (query_params p).length := by
  have c1 : countQ "SELECT * FROM (\n            SELECT * FROM hitokoto\n            " = 0 := by
    decide
  have c2 : countQ "\n        ) AS sampled\n        ORDER BY " = 0 := by decide
  have c3 : countQ "\n        LIMIT 1" = 0 := by decide
  simp only [Db.build_query_conditions, countQ_append, c1, c2, c3, countQ_where_clause,
    countQ_rand]
  omega

theorem Main_countQ_sql (p : QueryParams) (k : AnyKind) :
    countQ (Main.build_query_conditions p k).1 = (query_params p).length := by
  have c1 : countQ "SELECT * FROM hitokoto WHERE " = 0 := by decide
  have c2 : countQ " ORDER BY " = 0 := by decide
  have c3 : countQ " LIMIT 1" = 0 := by decide
  have h0 : countQ "1=1" = 0 := by decide
  have hj : countQ (joinStr " AND " ("1=1" :: conditions p)) = (query_params p).length := by
    rw [countQ_join " AND " (by decide)]
    simp only [List.map_cons, List.sum_cons, countQ_conditions, h0]
    omega
  simp only [Main.build_query_conditions, countQ_append, c1, c2, c3, countQ_rand, hj]
  omega

/-- C4: both query builders are deterministic (pure functions of the filter
and the dialect), bind their parameters in caller-supplied order — the
category values in order, then the min length, then the max length — and the
`IN` clause carries exactly one `?` placeholder per caller-supplied category;
moreover the total number of placeholders in the statement equals the number
of bound parameters. -/
theorem build_query_conditions_deterministic_ordered (p : QueryParams) (k : AnyKind) :
    (∀ (p2 : QueryParams) (k2 : AnyKind), p = p2 → k = k2 →
      Db.build_query_conditions p k = Db.build_query_conditions p2 k2
      ∧ Main.build_query_conditions p k = Main.build_query_conditions p2 k2)
    ∧ (Db.build_query_conditions p k).2 = catParams p ++ minParams p ++ maxParams p
    ∧ (Main.build_query_conditions p k).2 = catParams p ++ minParams p ++ maxParams p
    ∧ (∀ s, p.c = some s →
        catParams p = rustSplit s ','
        ∧ catConds p = ["type IN (" ++ placeholders (rustSplit s ',').length ++ ")"]
        ∧ countQ (placeholders (rustSplit s ',').length) = (rustSplit s ',').length)
    ∧ countQ (Db.build_query_conditions p k).1 = (Db.build_query_conditions p k).2.length
    ∧ countQ (Main.build_query_conditions p k).1 = (Main.build_query_conditions p k).2.length := by
  refine ⟨?_, rfl, rfl, ?_, Db_countQ_sql p k, Main_countQ_sql p k⟩
  · intro p2 k2 hp hk
    subst hp
    subst hk
    exact ⟨rfl, rfl⟩
  · intro s hs
    refine ⟨?_, ?_, countQ_placeholders _⟩
    · simp [catParams, hs, rustSplit_isEmpty]
    · simp [catConds, hs, rustSplit_isEmpty]

/-- Witness for `build_query_conditions_deterministic_ordered` at the spec's
scenario `sample(\x7bcategories:["k","a"]\x7d)` with length bounds 5 and 10. -/
theorem build_query_conditions_deterministic_ordered_witness :
    (Db.build_query_conditions ⟨some "k,a", none, some 5, some 10⟩ AnyKind.Sqlite
        = Db.build_query_conditions ⟨some "k,a", none, some 5, some 10⟩ AnyKind.Sqlite
      ∧ Main.build_query_conditions ⟨some "k,a", none, some 5, some 10⟩ AnyKind.Sqlite
        = Main.build_query_conditions ⟨some "k,a", none, some 5, some 10⟩ AnyKind.Sqlite)
    ∧ catParams ⟨some "k,a", none, some 5, some 10⟩ = rustSplit "k,a" ','
    ∧ (Db.build_query_conditions ⟨some "k,a", none, some 5, some 10⟩ AnyKind.Sqlite).2 =
        ["k", "a", "5", "10"]
    ∧ countQ (Db.build_query_conditions ⟨some "k,a", none, some 5, some 10⟩ AnyKind.Sqlite).1
        = (Db.build_query_conditions ⟨some "k,a", none, some 5, some 10⟩ AnyKind.Sqlite).2.length :=
  ⟨(build_query_conditions_deterministic_ordered
      ⟨some "k,a", none, some 5, some 10⟩ AnyKind.Sqlite).1
      ⟨some "k,a", none, some 5, some 10⟩ AnyKind.Sqlite rfl rfl,
   ((build_query_conditions_deterministic_ordered
      ⟨some "k,a", none, some 5, some 10⟩ AnyKind.Sqlite).2.2.2.1 "k,a" rfl).1,
   by decide,
   (build_query_conditions_deterministic_ordered
      ⟨some "k,a", none, some 5, some 10⟩ AnyKind.Sqlite).2.2.2.2.1⟩

/-- Model of the backing store's evaluation of the SQL predicate
`type IN (v1, ..., vn)`: the row value matches iff it equals one of the bound
values. -/
def sqlInMatches (cats : List String) (t : String) : Bool := cats.contains t

/-- C5: with no `c` parameter the builders emit no category condition at all —
the condition list holds only the length conditions and no category value is
bound, so results are not restricted by category; with a `c` parameter the
single emitted category condition is an `IN` clause over all the supplied
categories, whose store-side evaluation is the logical OR of equality with
each one. -/
theorem build_query_conditions_category_semantics (p : QueryParams) (k : AnyKind) :
    (p.c = none →
      conditions p = minConds p ++ maxConds p ∧ catParams p = [])
    ∧ (∀ s, p.c = some s →
        ("type IN (" ++ placeholders (rustSplit s ',').length ++ ")") ∈ conditions p
        ∧ (Db.build_query_conditions p k).2.take (rustSplit s ',').length = rustSplit s ','
        ∧ (∀ t : String,
            sqlInMatches (rustSplit s ',') t = true ↔ ∃ c ∈ rustSplit s ',', t = c)) := by
  constructor
  · intro hc
    constructor
    · simp [conditions, catConds, hc]
    · simp [catParams, hc]
  · intro s hs
    have hcat : catParams p = rustSplit s ',' := by
      simp [catParams, hs, rustSplit_isEmpty]
    have hcond : catConds p = ["type IN (" ++ placeholders (rustSplit s ',').length ++ ")"] := by
      simp [catConds, hs, rustSplit_isEmpty]
    refine ⟨?_, ?_, ?_⟩
    · rw [conditions, hcond]
      exact List.mem_append_left _ (List.mem_append_left _ (List.mem_singleton_self _))
    · show (query_params p).take (rustSplit s ',').length = rustSplit s ','
      rw [query_params, hcat, List.append_assoc]
      exact List.take_left (rustSplit s ',') (minParams p ++ maxParams p)
    · intro t
      simp only [sqlInMatches, List.contains_iff_exists_mem_beq]
      constructor
      · rintro ⟨c, hc, hbeq⟩
        exact ⟨c, hc, eq_of_beq hbeq⟩
      · rintro ⟨c, hc, ht⟩
        exact ⟨c, hc, beq_iff_eq.mpr ht⟩

/-- Witness for `build_query_conditions_category_semantics`: no category
parameter on one side, the two categories `"k"` and `"a"` on the other. -/
theorem build_query_conditions_category_semantics_witness :
    (conditions ⟨none, none, some 5, none⟩ =
        minConds ⟨none, none, some 5, none⟩ ++ maxConds ⟨none, none, some 5, none⟩
      ∧ catParams ⟨none, none, some 5, none⟩ = [])
    ∧ ("type IN (" ++ placeholders (rustSplit "k,a" ',').length ++ ")")
        ∈ conditions ⟨some "k,a", none, none, none⟩ :=
  ⟨(build_query_conditions_category_semantics ⟨none, none, some 5, none⟩ AnyKind.Sqlite).1 rfl,
   ((build_query_conditions_category_semantics
      ⟨some "k,a", none, none, none⟩ AnyKind.Sqlite).2 "k,a" rfl).1⟩

/-! ## The `/` handler `get_hitokoto` (`src/main.rs:315-331`)

The handler has exactly two branches: with no filter parameter at all it calls
`rand_hitokoto_without_params`, otherwise it builds the filtered statement
with `build_query_conditions` and executes it via
`execute_query_with_params`.  Both branches go to the backing store; there is
no in-memory validation of the length bounds anywhere in the handler. -/

/-- Which backing-store interaction `get_hitokoto` decides on for a request:
the unparameterized random path, or executing a built statement with its
bound parameters. -/
inductive SamplePlan where
  | randNoParams
  | query (sql : String) (params : List String)
deriving DecidableEq, Repr

namespace Main

/-- The branch decision and statement construction of `get_hitokoto`
(`src/main.rs:321-328`). -/
def get_hitokoto_plan (p : QueryParams) (kind : AnyKind) : SamplePlan :=
  if p.c.isNone && p.min_length.isNone && p.max_length.isNone then
    SamplePlan.randNoParams
  else
    SamplePlan.query (Main.build_query_conditions p kind).1
      (Main.build_query_conditions p kind).2

/-- Whether the chosen plan makes at least one backing-store call: the
`randNoParams` branch runs the `COUNT(*)` query (`src/main.rs:257-279`) and
the `query` branch executes the built statement through
`execute_query_with_params` (`src/main.rs:222-253,328`); both do. -/
def planIssuesStoreCall : SamplePlan → Bool
  | SamplePlan.randNoParams => true
  | SamplePlan.query _ _ => true

/-- The distinct HTTP responses `make_response` can produce
(`src/main.rs:294-313`); the JSON body is represented by the record it
serializes. -/
inductive Response where
  | okText (body : String)
  | okJson (h : Hitokoto)
  | notFound
  | internalServerError
deriving DecidableEq, Repr

/-- `make_response` (`src/main.rs:294-313`). -/
def make_response (encode : Option String) (hitokoto : Except Unit (Option Hitokoto)) :
    Response :=
  match hitokoto with
  | Except.ok (some h) =>
    if encode == some "text" then Response.okText h.text else Response.okJson h
  | Except.ok none => Response.notFound
  | Except.error _ => Response.internalServerError

end Main

/-- C3 counterexample: for the filter `min_length=5, max_length=3` (an
inverted range) and for `min_length=400` (outside any cached bounds), the
handler still chooses the filtered-query plan, which issues a backing-store
call — it returns neither `InvalidRange` nor `RangeUnsatisfiable` (no such
outcomes exist in the code) and makes a store round trip. -/
theorem get_hitokoto_no_fast_fail :
    Main.get_hitokoto_plan ⟨none, none, some 5, some 3⟩ AnyKind.Sqlite =
      SamplePlan.query
        (Main.build_query_conditions ⟨none, none, some 5, some 3⟩ AnyKind.Sqlite).1
        ["5", "3"]
    ∧ Main.planIssuesStoreCall
        (Main.get_hitokoto_plan ⟨none, none, some 5, some 3⟩ AnyKind.Sqlite) = true
    ∧ Main.get_hitokoto_plan ⟨none, none, some 400, none⟩ AnyKind.Sqlite =
      SamplePlan.query
        (Main.build_query_conditions ⟨none, none, some 400, none⟩ AnyKind.Sqlite).1
        ["400"]
    ∧ Main.planIssuesStoreCall
        (Main.get_hitokoto_plan ⟨none, none, some 400, none⟩ AnyKind.Sqlite) = true := by
  refine ⟨by decide, rfl, by decide, rfl⟩

/-- C3 (amended): `get_hitokoto` performs no in-memory range validation at
all: whenever any filter parameter is present — including `min_length >
max_length` and length bounds outside any cached interval — it builds the
filtered statement and issues it to the backing store; a query returning zero
rows is reported as `NotFound`.  `InvalidRange` and `RangeUnsatisfiable`
outcomes do not exist in the code. -/
theorem get_hitokoto_always_queries (p : QueryParams) (k : AnyKind) (e : Option String) :
    ((p.c.isNone && p.min_length.isNone && p.max_length.isNone) = false →
      Main.get_hitokoto_plan p k =
        SamplePlan.query (Main.build_query_conditions p k).1
          (Main.build_query_conditions p k).2)
    ∧ Main.planIssuesStoreCall (Main.get_hitokoto_plan p k) = true
    ∧ Main.make_response e (Except.ok none) = Main.Response.notFound := by
  refine ⟨?_, ?_, rfl⟩
  · intro h
    simp [Main.get_hitokoto_plan, h]
  · cases hp : Main.get_hitokoto_plan p k with
    | randNoParams => rfl
    | query sql params => rfl

/-- Witness for `get_hitokoto_always_queries` at the inverted range
`min_length=5, max_length=3`. -/
theorem get_hitokoto_always_queries_witness :
    Main.get_hitokoto_plan ⟨none, none, some 5, some 3⟩ AnyKind.Sqlite =
      SamplePlan.query
        (Main.build_query_conditions ⟨none, none, some 5, some 3⟩ AnyKind.Sqlite).1
        (Main.build_query_conditions ⟨none, none, some 5, some 3⟩ AnyKind.Sqlite).2
    ∧ Main.planIssuesStoreCall
        (Main.get_hitokoto_plan ⟨none, none, some 5, some 3⟩ AnyKind.Sqlite) = true
    ∧ Main.make_response none (Except.ok none) = Main.Response.notFound :=
  ⟨(get_hitokoto_always_queries ⟨none, none, some 5, some 3⟩ AnyKind.Sqlite none).1 rfl,
   (get_hitokoto_always_queries ⟨none, none, some 5, some 3⟩ AnyKind.Sqlite none).2.1,
   (get_hitokoto_always_queries ⟨none, none, some 5, some 3⟩ AnyKind.Sqlite none).2.2⟩

/-! ## Unfiltered sampling (`src/db.rs:249-272` and `src/main.rs:255-292`)

The backing store is modelled as the list of rows of the `hitokoto` table.
The two fixed query shapes these functions execute are given their SQL
meaning over that list; the random draw `rand::rng().random_range(0..n)` is
modelled by reducing a caller-supplied natural number into the range, with
the panic of `random_range` on an empty range (`n <= 0`) made explicit. -/

/-- SQL meaning of `SELECT * FROM hitokoto WHERE uuid = ?` under
`fetch_optional`: the first row whose `uuid` equals the bound value, if
any. -/
def fetch_by_uuid (table : List Hitokoto) (u : String) : Option Hitokoto :=
  table.find? (fun h => h.uuid == u)

/-- SQL meaning of `SELECT * FROM hitokoto LIMIT 1 OFFSET n` under
`fetch_optional`: the row at offset `n`, if any. -/
def fetch_by_offset (table : List Hitokoto) (n : Nat) : Option Hitokoto :=
  (table.drop n).head?

/-- How `rand_hitokoto_without_params` terminates: a normal result, or the
panic of `random_range` on an empty range. -/
inductive RandOutcome where
  | ok (h : Option Hitokoto)
  | panicked
deriving DecidableEq, Repr

namespace Db

/-- `rand_hitokoto_without_params` (`src/db.rs:249-272`): load the uuid
snapshot once; if non-empty, draw a random index into it and fetch that uuid;
otherwise draw a random offset in `0..count` — panicking when the cached
`count` (an `i32`) is not positive, since the range is then empty — and fetch
by offset. -/
def rand_hitokoto_without_params (snap : DbSnapshot) (table : List Hitokoto)
    (randPick : Nat) : RandOutcome :=
  let uuids := snap.uuids
  if h : 0 < uuids.length then
    let rand_index := randPick % uuids.length
    RandOutcome.ok
      (fetch_by_uuid table (uuids.get ⟨rand_index, Nat.mod_lt randPick h⟩))
  else if snap.count ≤ 0 then
    RandOutcome.panicked
  else
    let rand_index := randPick % snap.count.toNat
    RandOutcome.ok (fetch_by_offset table rand_index)

end Db

namespace Main

/-- `rand_hitokoto_without_params` (`src/main.rs:255-292`): query the row
count from the backing store, return no record when it is zero, otherwise
draw a random offset in `0..count` and fetch by offset. -/
def rand_hitokoto_without_params (table : List Hitokoto) (randPick : Nat) :
    Option Hitokoto :=
  let count := table.length
  if count = 0 then none
  else fetch_by_offset table (randPick % count)

end Main

/-- C9: when the loaded uuid snapshot is non-empty, every record returned by
`rand_hitokoto_without_params` carries a uuid present in that snapshot's
identifier list; when the identifier list is empty, the function falls back
to drawing an offset in `[0, count)` and fetching the row at that offset via
the skip query. -/
theorem rand_hitokoto_uuid_in_snapshot (snap : DbSnapshot) (table : List Hitokoto)
    (randPick : Nat) :
    (∀ h : Hitokoto, 0 < snap.uuids.length →
      Db.rand_hitokoto_without_params snap table randPick = RandOutcome.ok (some h) →
      h.uuid ∈ snap.uuids)
    ∧ (snap.uuids.length = 0 → 0 < snap.count →
      ∃ i : Nat, (i : Int) < snap.count ∧
        Db.rand_hitokoto_without_params snap table randPick =
          RandOutcome.ok (fetch_by_offset table i)) := by
  constructor
  · intro h hlen heq
    rw [Db.rand_hitokoto_without_params] at heq
    simp only [dif_pos hlen, RandOutcome.ok.injEq] at heq
    have hfind := List.find?_some heq
    have huuid : h.uuid = snap.uuids.get ⟨randPick % snap.uuids.length, Nat.mod_lt randPick hlen⟩ :=
      eq_of_beq hfind
    rw [huuid]
    exact List.get_mem _ _ _
  · intro hlen hcount
    have hnot : ¬ 0 < snap.uuids.length := by omega
    have hle : ¬ snap.count ≤ 0 := by omega
    refine ⟨randPick % snap.count.toNat, ?_, ?_⟩
    · have hpos : 0 < snap.count.toNat := by omega
      have := Nat.mod_lt randPick hpos
      omega
    · rw [Db.rand_hitokoto_without_params]
      simp only [dif_neg hnot, if_neg hle]

/-- Witness for `rand_hitokoto_uuid_in_snapshot`: a one-row store with a
one-uuid snapshot, and an empty-snapshot state with positive count. -/
theorem rand_hitokoto_uuid_in_snapshot_witness :
    (⟨1, "u1", "t", "t1", "s", none, 1⟩ : Hitokoto).uuid ∈ (["u1"] : List String)
    ∧ ∃ i : Nat, (i : Int) < (1 : Int) ∧
        Db.rand_hitokoto_without_params ⟨1, 1, 1, []⟩ [] 0 =
          RandOutcome.ok (fetch_by_offset [] i) :=
  ⟨(rand_hitokoto_uuid_in_snapshot ⟨1, 1, 1, ["u1"]⟩
        [⟨1, "u1", "t", "t1", "s", none, 1⟩] 0).1
      ⟨1, "u1", "t", "t1", "s", none, 1⟩ (by decide) (by decide),
   (rand_hitokoto_uuid_in_snapshot ⟨1, 1, 1, []⟩ [] 0).2 rfl (by decide)⟩

/-- C10: the offset-fallback branch of `db.rs`'s unfiltered sampling is total
only when the cached count is strictly positive: with an empty identifier
list and a non-positive cached count the random draw is over an empty range
and the function panics, whereas with a positive count it returns a result;
the `main.rs` variant instead returns no record when the store count is
zero. -/
theorem rand_hitokoto_empty_count_panics (snap : DbSnapshot) (table : List Hitokoto)
    (randPick : Nat) :
    (snap.uuids = [] → snap.count ≤ 0 →
      Db.rand_hitokoto_without_params snap table randPick = RandOutcome.panicked)
    ∧ (snap.uuids = [] → 0 < snap.count →
      ∃ o : Option Hitokoto,
        Db.rand_hitokoto_without_params snap table randPick = RandOutcome.ok o)
    ∧ Main.rand_hitokoto_without_params [] randPick = none := by
  refine ⟨?_, ?_, rfl⟩
  · intro huuids hcount
    have hnot : ¬ 0 < snap.uuids.length := by rw [huuids]; simp
    rw [Db.rand_hitokoto_without_params]
    simp only [dif_neg hnot, if_pos hcount]
  · intro huuids hcount
    have hnot : ¬ 0 < snap.uuids.length := by rw [huuids]; simp
    have hle : ¬ snap.count ≤ 0 := by omega
    refine ⟨fetch_by_offset table (randPick % snap.count.toNat), ?_⟩
    rw [Db.rand_hitokoto_without_params]
    simp only [dif_neg hnot, if_neg hle]

/-- Witness for `rand_hitokoto_empty_count_panics`: empty identifier list
with cached count `0` panics; with cached count `2` it returns a result. -/
theorem rand_hitokoto_empty_count_panics_witness :
    Db.rand_hitokoto_without_params ⟨0, 1, 1, []⟩ [] 3 = RandOutcome.panicked
    ∧ (∃ o : Option Hitokoto,
        Db.rand_hitokoto_without_params ⟨2, 1, 1, []⟩ [] 3 = RandOutcome.ok o)
    ∧ Main.rand_hitokoto_without_params [] 3 = none :=
  ⟨(rand_hitokoto_empty_count_panics ⟨0, 1, 1, []⟩ [] 3).1 rfl (by decide),
   (rand_hitokoto_empty_count_panics ⟨2, 1, 1, []⟩ [] 3).2.1 rfl (by decide),
   (rand_hitokoto_empty_count_panics ⟨0, 1, 1, []⟩ [] 3).2.2⟩

/-! ## Mirror loader `load_data_to_memory` (`src/db.rs:108-185`)

Each fallible store interaction is given an explicit success/failure switch;
the in-memory SQLite table is modelled by the list of rows inserted into it.
Program order: connect the memory pool, create the table, fetch every row
from the source, insert them one by one, build the two indexes, run
`COUNT(*)` on the memory pool, run the length-stats query on the *source*
pool with `.unwrap()` (line 173 — a failure there panics), and only then
close the source pool (line 177) and return the new `DbState`. -/

/-- Success/failure switches for the store interactions of
`load_data_to_memory`, and the value the length-stats query returns when it
succeeds.  An insert can only fail when the loop body runs at least once. -/
structure MirrorEnv where
  connectFails : Bool
  createTableFails : Bool
  fetchFails : Bool
  insertFails : Bool
  idxUuidFails : Bool
  idxTypeLenFails : Bool
  countFails : Bool
  statsFails : Bool
  statsVal : Int × Int
deriving DecidableEq, Repr

/-- What a successful mirror load returns: the populated in-memory table and
the `DbState` built over it. -/
structure MirrorResult where
  memTable : List Hitokoto
  snapshot : DbSnapshot
deriving DecidableEq, Repr

/-- How `load_data_to_memory` terminates, with whether the source pool has
been closed at that point. -/
inductive MirrorOutcome where
  | ok (m : MirrorResult) (sourceClosed : Bool)
  | err (sourceClosed : Bool)
  | panicked (sourceClosed : Bool)
deriving DecidableEq, Repr

/-- `load_data_to_memory` (`src/db.rs:108-185`) over the source table rows
and the failure switches. -/
def load_data_to_memory (sourceTable : List Hitokoto) (env : MirrorEnv) :
    MirrorOutcome :=
  if env.connectFails then MirrorOutcome.err false
  else if env.createTableFails then MirrorOutcome.err false
  else if env.fetchFails then MirrorOutcome.err false
  else
    let hitokotos := sourceTable
    let uuid_list := hitokotos.map (fun h => h.uuid)
    if env.insertFails && !hitokotos.isEmpty then MirrorOutcome.err false
    else if env.idxUuidFails then MirrorOutcome.err false
    else if env.idxTypeLenFails then MirrorOutcome.err false
    else if env.countFails then MirrorOutcome.err false
    else
      let count : Int := hitokotos.length
      if env.statsFails then MirrorOutcome.panicked false
      else
        MirrorOutcome.ok
          ⟨hitokotos, ⟨count, env.statsVal.1, env.statsVal.2, uuid_list⟩⟩ true

/-- The dichotomy C8 asserts, as a boolean over an outcome: either a success
whose snapshot count equals the source row count and whose identifier list is
exactly the source's uuids, with the source closed; or an error return with
the source not closed.  A panic satisfies neither branch. -/
def mirrorClaimB (sourceTable : List Hitokoto) : MirrorOutcome → Bool
  | MirrorOutcome.ok m closed =>
    (m.snapshot.count == (sourceTable.length : Int))
      && (m.snapshot.uuids == sourceTable.map (fun h => h.uuid))
      && closed
  | MirrorOutcome.err closed => !closed
  | MirrorOutcome.panicked _ => false

/-- C8 counterexample: when every copy and index step succeeds but the
length-stats query on the source fails, `load_data_to_memory` panics (the
result is consumed with `.unwrap()` at `src/db.rs:173`) — it neither succeeds
nor returns an error, so the claimed dichotomy fails at this input. -/
theorem load_data_to_memory_stats_panic :
    load_data_to_memory []
        ⟨false, false, false, false, false, false, false, true, (0, 0)⟩ =
      MirrorOutcome.panicked false
    ∧ mirrorClaimB []
        (load_data_to_memory []
          ⟨false, false, false, false, false, false, false, true, (0, 0)⟩) = false :=
  ⟨rfl, rfl⟩

/-- What each termination of `load_data_to_memory` guarantees: a success
carries a mirror whose row list is exactly the source's, whose snapshot count
equals the source count and whose identifier list is exactly the source's
uuids, with the source closed; an error return and a panic both leave the
source open, and neither exposes a mirror. -/
def mirrorSpec (sourceTable : List Hitokoto) : MirrorOutcome → Prop
  | MirrorOutcome.ok m closed =>
    m.snapshot.count = (sourceTable.length : Int)
      ∧ m.snapshot.uuids = sourceTable.map (fun h => h.uuid)
      ∧ m.memTable = sourceTable
      ∧ closed = true
  | MirrorOutcome.err closed => closed = false
  | MirrorOutcome.panicked closed => closed = false

/-- C8 (amended): `load_data_to_memory` either succeeds — returning a mirror
whose row list, count and identifier list all match the source, and closing
the source handle only then — or fails at a copy/index/count step and returns
an error with the source left open and no mirror exposed, or panics when the
post-copy length-stats query on the source fails, again with the source open
and no mirror exposed. -/
theorem load_data_to_memory_spec (sourceTable : List Hitokoto) (env : MirrorEnv) :
    mirrorSpec sourceTable (load_data_to_memory sourceTable env) := by
  rw [load_data_to_memory]
  split_ifs <;> simp_all [mirrorSpec] <;> split_ifs <;> simp [mirrorSpec]
